import Mathlib

/-!
Verification of the stream filtering/sorting core of UsenetStreamer
(`src/utils/streamFilters.js`).

The JavaScript module is shallowly embedded below.  Conventions used
throughout the embedding:

* JS `undefined`/`null` function arguments and absent object fields are
  modelled with `Option`; JS string truthiness (`!s` is true exactly for
  the empty string among strings) is modelled by `strTruthy`.
* JS numbers holding sizes/ages/days are modelled as `Int`; `x || 0`
  on a possibly-absent number is `Option.getD · 0` (`0 || 0 = 0` agrees).
* `String.prototype.toUpperCase`/`toLowerCase` (ASCII range, the only
  range exercised by the module's literals) are modelled by `strUpper` /
  `strLower`, a character-wise map (kernel-reducible, unlike
  `String.toUpper` which recurses on byte positions).
* `String.prototype.includes` is modelled by `strContains`.
* The external release-name parser (`@ctrl/video-filename-parser`,
  wrapped by `parseRelease`) is opaque to this module: `parseRelease`
  never throws and yields a descriptor object (empty on failure).  The
  embedding therefore takes a total function `parse : String →
  ReleaseDescriptor` as a parameter wherever the source calls
  `parseRelease`.
* The module-level configuration `AGE_THRESHOLDS` (imported from
  `../config/environment`) is threaded as an `Option AgeThresholds`
  parameter.
* `Array.prototype.sort(cmp)` is stable (ECMAScript 2019); it is
  modelled as `List.mergeSort` with the boolean order `cmp a b ≤ 0`.
* The final `{...item.result, parsed: item.parsed}` spread merges the
  raw result's fields with the descriptor; it carries exactly the
  information of the `{result, parsed}` pair, so the embedding keeps the
  pair as the element type of `sortedResults`.
-/

/-- Character-list prefix test (used to implement substring search). -/
def charsStartsWith : List Char → List Char → Bool
  | [], _ => true
  | _ :: _, [] => false
  | a :: as, b :: bs => a == b && charsStartsWith as bs

/-- Character-list substring test: does `pat` occur contiguously in the list? -/
def charsContains : List Char → List Char → Bool
  | [], pat => pat.isEmpty
  | c :: rest, pat => charsStartsWith pat (c :: rest) || charsContains rest pat

/-- Model of JS `s.includes(pat)`. -/
def strContains (s pat : String) : Bool := charsContains s.data pat.data

/-- Model of JS `s.toUpperCase()` for ASCII data. -/
def strUpper (s : String) : String := ⟨s.data.map Char.toUpper⟩

/-- Model of JS `s.toLowerCase()` for ASCII data. -/
def strLower (s : String) : String := ⟨s.data.map Char.toLower⟩

/-- JS truthiness of a possibly-absent string: `undefined`, `null` and
`""` are falsy, every other string is truthy. -/
def strTruthy : Option String → Bool
  | none => false
  | some s => !(s == "")

/-- Raw search result handed to the filtering core (`RawResult` in the
spec).  Only the fields read by `streamFilters.js` are modelled:
`title`, `size` (bytes, possibly absent) and `age` (days, possibly
absent). -/
structure RawResult where
  title : String
  size : Option Int
  age : Option Int
  deriving DecidableEq

/-- Structured descriptor extracted from a release title by the external
parser.  Only the fields read by the ranking/filtering/grouping
functions are modelled (`resolution`, `audioCodec`, `languages`,
`multi`); the display-only fields (`sources`, `edition`, `group`,
`audioChannels`) are not read by any function verified here. -/
structure ReleaseDescriptor where
  resolution : Option String
  audioCodec : Option String
  languages : List String
  multi : Bool
  deriving DecidableEq

/-- The descriptor produced for an unparseable title (`parseRelease`
returns `{}` on error): every field absent/empty. -/
def emptyDescriptor : ReleaseDescriptor :=
  { resolution := none, audioCodec := none, languages := [], multi := false }

/-- The `{result, parsed}` pair built by `filterAndSortStreams` (the
`ScoredItem` of the spec). -/
structure Item where
  result : RawResult
  parsed : ReleaseDescriptor
  deriving DecidableEq

/-- Retention thresholds configuration (the `AGE_THRESHOLDS` object from
`../config/environment`); fields as destructured at line 30 of the
source. -/
structure AgeThresholds where
  freshDays : Int
  agingDays : Int
  warningDays : Int
  filterDays : Int
  deriving DecidableEq

/-- Health-status record returned by `getAgeHealthStatus`. -/
structure HealthStatus where
  status : String
  icon : String
  label : String
  warning : Option String
  deriving DecidableEq

/-- `getAgeHealthStatus` (source lines 25–79): health classification of
an age given the configured retention thresholds, first match wins. -/
def getAgeHealthStatus (thresholds : Option AgeThresholds) (age : Option Int) :
    Option HealthStatus :=
  match thresholds, age with
  | none, _ => none
  | some _, none => none
  | some t, some a =>
    if a > t.filterDays then
      some { status := "filtered", icon := "🚫", label := "Filtered",
             warning := some "May be incomplete" }
    else if a ≥ t.warningDays then
      some { status := "warning", icon := "⚠️", label := "Warning",
             warning := some "May be incomplete" }
    else if a ≥ t.agingDays then
      some { status := "aging", icon := "⏳", label := "Aging", warning := none }
    else if a ≤ t.freshDays then
      some { status := "fresh", icon := "📅", label := "Fresh", warning := none }
    else
      some { status := "standard", icon := "📄", label := "Standard", warning := none }

/-- `shouldFilterByAge` (source lines 119–125): admission-control
predicate of the retention stage. -/
def shouldFilterByAge (thresholds : Option AgeThresholds) (age : Option Int) : Bool :=
  match thresholds, age with
  | none, _ => false
  | some _, none => false
  | some t, some a => a > t.filterDays

/-- `getVideoQualityRank` (source lines 132–146): resolution string to
ordinal rank, via the `ranks` dictionary with default `0`. -/
def getVideoQualityRank (resolution : Option String) : Nat :=
  match resolution with
  | none => 0
  | some r =>
    if r == "" then 0
    else
      let normalized := strUpper r
      if normalized == "2160P" then 4
      else if normalized == "4K" then 4
      else if normalized == "UHD" then 4
      else if normalized == "1080P" then 3
      else if normalized == "720P" then 2
      else if normalized == "480P" then 1
      else 0

/-- `getAudioQualityRank` (source lines 154–181): ordered substring
rules against the uppercased codec, first match wins; note that the
plain-`TRUEHD` rule sits at the very end of the cascade (line 178),
after the AC3/DTS/AAC rules. -/
def getAudioQualityRank (audioCodec : Option String) : Nat :=
  match audioCodec with
  | none => 0
  | some s =>
    if s == "" then 0
    else
      let codec := strUpper s
      if strContains codec "TRUEHD" && strContains codec "ATMOS" then 6
      else if strContains codec "DTS-HD" && strContains codec "MA" then 6
      else if strContains codec "DTS-HD.MA" then 6
      else if strContains codec "DTS-HD" then 5
      else if strContains codec "EAC3" || strContains codec "E-AC-3" ||
          strContains codec "DD+" || strContains codec "DDP" then 4
      else if strContains codec "AC3" || strContains codec "DD " || codec == "DD" then 3
      else if strContains codec "DTS" && !strContains codec "DTS-HD" then 3
      else if strContains codec "AAC" then 2
      else if strContains codec "TRUEHD" then 6
      else 1

/-- `extractQuality` (source lines 188–198): canonical quality string of
a descriptor (`none` models the JS `null`). -/
def extractQuality (parsed : Option ReleaseDescriptor) : Option String :=
  match parsed with
  | none => none
  | some p =>
    match p.resolution with
    | none => none
    | some r =>
      if r == "" then none
      else
        let res := strUpper r
        if res == "2160P" || res == "UHD" then some "4K"
        else if res == "1080P" then some "1080p"
        else if res == "720P" then some "720p"
        else if res == "480P" then some "480p"
        else some r

/-- The `filterMap` dictionary of `matchesQualityFilter` (source lines
210–218), with the JS `|| []` default for unrecognized keys. -/
def qualityFilterMap (filter : Option String) : List String :=
  if filter == some "4K/2160p" then ["4K"]
  else if filter == some "1080p" then ["1080p"]
  else if filter == some "720p" then ["720p"]
  else if filter == some "480p" then ["480p"]
  else if filter == some "4K + 1080p" then ["4K", "1080p"]
  else if filter == some "1080p + 720p" then ["1080p", "720p"]
  else if filter == some "720p + 480p" then ["720p", "480p"]
  else []

/-- `matchesQualityFilter` (source lines 206–222). -/
def matchesQualityFilter (quality : Option String) (filter : Option String) : Bool :=
  if !strTruthy filter || filter == some "All" then true
  else
    match quality with
    | none => false
    | some q =>
      if q == "" then false
      else (qualityFilterMap filter).contains q

/-- The `languageTags` dictionary of `detectLanguageGroup` (source lines
287–302), in JS object-entry (insertion) order. -/
def languageTags : List (String × String) :=
  [("GERMAN", "german"), ("FRENCH", "french"), ("SPANISH", "spanish"),
   ("ITALIAN", "italian"), ("PORTUGUESE", "portuguese"), ("RUSSIAN", "russian"),
   ("JAPANESE", "japanese"), ("KOREAN", "korean"), ("CHINESE", "chinese"),
   ("ARABIC", "arabic"), ("HINDI", "hindi"), ("DUTCH", "dutch"),
   ("POLISH", "polish"), ("TURKISH", "turkish")]

/-- `detectLanguageGroup` (source lines 232–321): three-way language
classification, returning one of the strings `"preferred"`, `"english"`
or `"other"`. -/
def detectLanguageGroup (parsedItem : Option ReleaseDescriptor)
    (preferredLang : Option String) (title : String := "") : String :=
  match parsedItem, preferredLang with
  | none, _ => "english"
  | some _, none => "english"
  | some parsed, some preferredLanguage =>
    if preferredLanguage == "" || preferredLanguage == "No Preference" then "english"
    else
      let languages := parsed.languages
      if parsed.multi then
        if languages.any fun lang => strLower lang == strLower preferredLanguage then
          "preferred"
        else if languages.any fun lang => strLower lang == "english" then "english"
        else "other"
      else if languages.any fun lang => strLower lang == strLower preferredLanguage then
        "preferred"
      else if languages.any fun lang => strLower lang == "english" then "english"
      else if languages.isEmpty then
        let titleUpper := strUpper title
        match languageTags.find? fun tagLang => strContains titleUpper tagLang.1 with
        | some tagLang =>
          if strLower tagLang.2 == strLower preferredLanguage then "preferred" else "other"
        | none => "english"
      else "other"

/-- JS `item.result.size || 0` (sort keys, lines 347 and 382). -/
def sizeVal (r : RawResult) : Int := r.size.getD 0

/-- JS `item.result.age || 0` (sort key, lines 351–352). -/
def ageVal (r : RawResult) : Int := r.age.getD 0

/-- The comparator passed to `sorted.sort` inside `sortWithinGroup`
(source lines 332–383): primary key selected by `sortMethod` (`switch`
with `Quality First` default), then the video-quality tiebreaker (only
when the method is not `Quality First`), then audio quality, then
size. -/
def streamCompare (sortMethod : Option String) (a b : Item) : Int :=
  let primaryComparison : Int :=
    if sortMethod == some "Quality First" then
      (getVideoQualityRank b.parsed.resolution : Int) -
        (getVideoQualityRank a.parsed.resolution : Int)
    else if sortMethod == some "Size First" then
      sizeVal b.result - sizeVal a.result
    else if sortMethod == some "Date First" then
      ageVal a.result - ageVal b.result
    else
      (getVideoQualityRank b.parsed.resolution : Int) -
        (getVideoQualityRank a.parsed.resolution : Int)
  if primaryComparison ≠ 0 then primaryComparison
  else if sortMethod ≠ some "Quality First" ∧
      (getVideoQualityRank b.parsed.resolution : Int) -
        (getVideoQualityRank a.parsed.resolution : Int) ≠ 0 then
    (getVideoQualityRank b.parsed.resolution : Int) -
      (getVideoQualityRank a.parsed.resolution : Int)
  else if (getAudioQualityRank b.parsed.audioCodec : Int) -
      (getAudioQualityRank a.parsed.audioCodec : Int) ≠ 0 then
    (getAudioQualityRank b.parsed.audioCodec : Int) -
      (getAudioQualityRank a.parsed.audioCodec : Int)
  else sizeVal b.result - sizeVal a.result

/-- `sortWithinGroup` (source lines 329–386): a stable sort of the items
by the comparator (JS `Array.prototype.sort` is stable; modelled by the
stable `List.mergeSort` ordered by `streamCompare · · ≤ 0`). -/
def sortWithinGroup (items : List Item) (sortMethod : Option String) : List Item :=
  items.mergeSort fun a b => decide (streamCompare sortMethod a b ≤ 0)

/-- Parsing stage of `filterAndSortStreams` (source lines 401–404):
pair every result with its parsed descriptor. -/
def parsedItemsStage (parse : String → ReleaseDescriptor) (results : List RawResult) :
    List Item :=
  results.map fun result => { result := result, parsed := parse result.title }

/-- Age-filter stage of `filterAndSortStreams` (source lines 409–430):
active only when `AGE_THRESHOLDS` is configured. -/
def ageFilterStage (thresholds : Option AgeThresholds) (items : List Item) : List Item :=
  match thresholds with
  | none => items
  | some _ => items.filter fun item => !shouldFilterByAge thresholds item.result.age

/-- Quality-filter stage of `filterAndSortStreams` (source lines
433–453): active only when a truthy filter other than `"All"` is set. -/
def qualityFilterStage (qualityFilter : Option String) (items : List Item) : List Item :=
  if strTruthy qualityFilter ∧ qualityFilter ≠ some "All" then
    items.filter fun item =>
      matchesQualityFilter (extractQuality (some item.parsed)) qualityFilter
  else items

/-- The `groupInfo` record assembled at source lines 557–564. -/
structure GroupInfo where
  preferredLanguage : Option String
  preferredCount : Nat
  englishCount : Nat
  otherCount : Nat
  group1End : Nat
  group2End : Nat
  deriving DecidableEq

/-- Return value of `filterAndSortStreams`. -/
structure FilterSortOutput where
  sortedResults : List Item
  groupInfo : Option GroupInfo
  deriving DecidableEq

/-- `filterAndSortStreams` (source lines 396–566): parse, filter by age,
filter by quality, then either sort everything as a single group (no
preferred language) or split into the three language groups, sort each
and concatenate Preferred → English → Other. -/
def filterAndSortStreams (parse : String → ReleaseDescriptor)
    (thresholds : Option AgeThresholds) (results : List RawResult)
    (sortMethod : Option String) (preferredLanguage : Option String)
    (qualityFilter : Option String) : FilterSortOutput :=
  let filteredItems :=
    qualityFilterStage qualityFilter
      (ageFilterStage thresholds (parsedItemsStage parse results))
  if !strTruthy preferredLanguage || preferredLanguage == some "No Preference" then
    { sortedResults := sortWithinGroup filteredItems sortMethod, groupInfo := none }
  else
    let preferredGroup := filteredItems.filter fun item =>
      detectLanguageGroup (some item.parsed) preferredLanguage item.result.title ==
        "preferred"
    let englishGroup := filteredItems.filter fun item =>
      detectLanguageGroup (some item.parsed) preferredLanguage item.result.title ==
        "english"
    let otherGroup := filteredItems.filter fun item =>
      !(detectLanguageGroup (some item.parsed) preferredLanguage item.result.title ==
          "preferred") &&
      !(detectLanguageGroup (some item.parsed) preferredLanguage item.result.title ==
          "english")
    let sortedPreferred := sortWithinGroup preferredGroup sortMethod
    let sortedEnglish := sortWithinGroup englishGroup sortMethod
    let sortedOther := sortWithinGroup otherGroup sortMethod
    let allSorted := sortedPreferred ++ sortedEnglish ++ sortedOther
    let group1End := sortedPreferred.length
    let group2End := group1End + sortedEnglish.length
    { sortedResults := allSorted,
      groupInfo := some
        { preferredLanguage := preferredLanguage,
          preferredCount := sortedPreferred.length,
          englishCount := sortedEnglish.length,
          otherCount := sortedOther.length,
          group1End := group1End,
          group2End := group2End } }

/-- First component of the comparator's key cascade: the primary sort
key selected by the `switch` on `sortMethod` (all keys sort descending;
the `Date First` key is the negated age). -/
def primaryKey (m : Option String) (x : Item) : Int :=
  if m == some "Quality First" then (getVideoQualityRank x.parsed.resolution : Int)
  else if m == some "Size First" then sizeVal x.result
  else if m == some "Date First" then -(ageVal x.result)
  else (getVideoQualityRank x.parsed.resolution : Int)

/-- The full key tuple the comparator cascades through: primary key,
video rank, audio rank, byte size. -/
def sortKeys (m : Option String) (x : Item) : Int × Int × Int × Int :=
  (primaryKey m x, (getVideoQualityRank x.parsed.resolution : Int),
   (getAudioQualityRank x.parsed.audioCodec : Int), sizeVal x.result)

/-- Descending lexicographic comparison of two key tuples: the result is
the first nonzero difference `q.i - p.i`. -/
def lex4 (p q : Int × Int × Int × Int) : Int :=
  if p.1 ≠ q.1 then q.1 - p.1
  else if p.2.1 ≠ q.2.1 then q.2.1 - p.2.1
  else if p.2.2.1 ≠ q.2.2.1 then q.2.2.1 - p.2.2.1
  else q.2.2.2 - p.2.2.2

/-- Modelled from the spec: generic first-match evaluator over an
ordered rule table (design note "ordered rule lists ... consulted by a
small generic evaluator"); returns the fallback when no rule matches. -/
def firstMatchRank : List ((String → Bool) × Nat) → Nat → String → Nat
  | [], fallback, _ => fallback
  | (p, v) :: rest, fallback, codec =>
    if p codec then v else firstMatchRank rest fallback codec

/-- Modelled from the spec: the audio-rank substring rules of §4.1 as an
ordered table, in the order the code actually evaluates them — the
plain-`TRUEHD` rule comes last, after the AC3/DTS/AAC rules. -/
def audioRankRules : List ((String → Bool) × Nat) :=
  [(fun c => (strContains c "TRUEHD" && strContains c "ATMOS") ||
       (strContains c "DTS-HD" && strContains c "MA"), 6),
   (fun c => strContains c "DTS-HD", 5),
   (fun c => strContains c "EAC3" || strContains c "E-AC-3" ||
       strContains c "DD+" || strContains c "DDP", 4),
   (fun c => strContains c "AC3" || strContains c "DD " || c == "DD" ||
       (strContains c "DTS" && !strContains c "DTS-HD"), 3),
   (fun c => strContains c "AAC", 2),
   (fun c => strContains c "TRUEHD", 6)]

/-- Modelled from the spec: audio rank as first-match evaluation of the
rule table against the uppercased codec; non-empty strings matching no
rule rank 1, empty/unknown rank 0. -/
def audioRankSpec (audioCodec : Option String) : Nat :=
  match audioCodec with
  | none => 0
  | some s => if s == "" then 0 else firstMatchRank audioRankRules 1 (strUpper s)

/-- A concrete parse function for witness instantiations: `GERMAN`
titles yield a German-tagged 1080p descriptor, everything else an
untagged 1080p/AC3 descriptor. -/
def sampleParse : String → ReleaseDescriptor := fun t =>
  if strContains (strUpper t) "GERMAN" then
    { resolution := some "1080P", audioCodec := some "DTS-HD MA",
      languages := ["german"], multi := false }
  else
    { resolution := some "1080P", audioCodec := some "AC3", languages := [],
      multi := false }

/-- Concrete raw results for witness instantiations. -/
def sampleResults : List RawResult :=
  [{ title := "Movie.2020.GERMAN.1080p.BluRay", size := some 8000000000, age := some 2 },
   { title := "Movie.2020.1080p.WEB-DL.AC3", size := some 4000000000, age := some 10 }]

/-- Concrete retention thresholds for witness instantiations. -/
def sampleThresholds : AgeThresholds :=
  { freshDays := 7, agingDays := 30, warningDays := 60, filterDays := 90 }

/-- The pipeline item produced from the first sample result. -/
def sampleItem : Item :=
  { result :=
      { title := "Movie.2020.GERMAN.1080p.BluRay"
        size := some 8000000000
        age := some 2 }
    parsed :=
      { resolution := some "1080P"
        audioCodec := some "DTS-HD MA"
        languages := ["german"]
        multi := false } }

/-- The pipeline item produced from the second sample result. -/
def sampleEnglishItem : Item :=
  { result :=
      { title := "Movie.2020.1080p.WEB-DL.AC3"
        size := some 4000000000
        age := some 10 }
    parsed :=
      { resolution := some "1080P"
        audioCodec := some "AC3"
        languages := []
        multi := false } }

/-- A single-element result list for the quality-filter counterexample. -/
def sampleSingleton : List RawResult :=
  [{ title := "Movie.2020.1080p.WEB-DL.AC3", size := some 4000000000, age := some 10 }]

/-- A MULTi descriptor with a confirmed German track. -/
def multiGermanDescriptor : ReleaseDescriptor :=
  { resolution := some "1080P", audioCodec := none,
    languages := ["german", "english"], multi := true }

/-- Two distinct items with identical sort keys (they differ only in the
title), for the stability witness. -/
def sampleItemA : Item :=
  { result :=
      { title := "Release.A.1080p"
        size := some 100
        age := some 5 }
    parsed :=
      { resolution := some "1080P"
        audioCodec := some "AC3"
        languages := []
        multi := false } }

/-- Second of the two key-identical items for the stability witness. -/
def sampleItemB : Item :=
  { result :=
      { title := "Release.B.1080p"
        size := some 100
        age := some 5 }
    parsed :=
      { resolution := some "1080P"
        audioCodec := some "AC3"
        languages := []
        multi := false } }

theorem streamCompare_eq_lex4 (m : Option String) (a b : Item) :
    streamCompare m a b = lex4 (sortKeys m a) (sortKeys m b) := by
  simp only [streamCompare, lex4, sortKeys, primaryKey]
  by_cases h1 : m = some "Quality First"
  · simp only [h1, beq_self_eq_true, if_true, ne_eq, not_true_eq_false, false_and, if_false]
    split_ifs <;> omega
  · by_cases h2 : m = some "Size First"
    · subst h2
      simp only [show ((some "Size First" : Option String) == some "Quality First") = false by
        decide, if_false, beq_self_eq_true, if_true, ne_eq]
      simp only [show ¬(some "Size First" = some "Quality First") by decide, not_false_iff,
        true_and]
      split_ifs <;> omega
    · by_cases h3 : m = some "Date First"
      · subst h3
        simp only [show ((some "Date First" : Option String) == some "Quality First") = false by
          decide, show ((some "Date First" : Option String) == some "Size First") = false by
          decide, if_false, beq_self_eq_true, if_true, ne_eq]
        simp only [show ¬(some "Date First" = some "Quality First") by decide, not_false_iff,
          true_and]
        split_ifs <;> omega
      · have e1 : (m == some "Quality First") = false := beq_eq_false_iff_ne.mpr h1
        have e2 : (m == some "Size First") = false := beq_eq_false_iff_ne.mpr h2
        have e3 : (m == some "Date First") = false := beq_eq_false_iff_ne.mpr h3
        simp only [e1, e2, e3, if_false, ne_eq, h1, not_false_iff, true_and]
        split_ifs <;> omega

theorem lex4_trans {p q r : Int × Int × Int × Int}
    (h1 : lex4 p q ≤ 0) (h2 : lex4 q r ≤ 0) : lex4 p r ≤ 0 := by
  simp only [lex4, ne_eq] at h1 h2 ⊢
  split_ifs at h1 h2 ⊢ <;> omega

theorem lex4_total (p q : Int × Int × Int × Int) : lex4 p q ≤ 0 ∨ lex4 q p ≤ 0 := by
  simp only [lex4, ne_eq]
  split_ifs <;> omega

theorem lex4_of_eq {p q : Int × Int × Int × Int} (h : p = q) : lex4 p q = 0 := by
  subst h
  simp [lex4]

theorem streamCompare_le_trans (m : Option String) {a b c : Item}
    (h1 : streamCompare m a b ≤ 0) (h2 : streamCompare m b c ≤ 0) :
    streamCompare m a c ≤ 0 := by
  rw [streamCompare_eq_lex4] at h1 h2 ⊢
  exact lex4_trans h1 h2

theorem streamCompare_le_total (m : Option String) (a b : Item) :
    streamCompare m a b ≤ 0 ∨ streamCompare m b a ≤ 0 := by
  rw [streamCompare_eq_lex4, streamCompare_eq_lex4]
  exact lex4_total _ _

theorem mem_sortWithinGroup {x : Item} {l : List Item} {m : Option String} :
    x ∈ sortWithinGroup l m ↔ x ∈ l := by
  unfold sortWithinGroup
  exact List.mem_mergeSort

theorem length_sortWithinGroup (l : List Item) (m : Option String) :
    (sortWithinGroup l m).length = l.length := by
  unfold sortWithinGroup
  exact List.length_mergeSort l

theorem detectLanguageGroup_cases (p : Option ReleaseDescriptor) (pl : Option String)
    (t : String) :
    detectLanguageGroup p pl t = "preferred" ∨ detectLanguageGroup p pl t = "english" ∨
    detectLanguageGroup p pl t = "other" := by
  unfold detectLanguageGroup
  rcases p with _ | p
  · simp
  rcases pl with _ | pl
  · simp
  simp only
  split_ifs <;> simp
  split <;> simp
  split_ifs <;> simp <;> tauto

theorem mem_ageFilterStage {th : Option AgeThresholds} {l : List Item} {item : Item}
    (h : item ∈ ageFilterStage th l) :
    item ∈ l ∧ shouldFilterByAge th item.result.age = false := by
  unfold ageFilterStage at h
  match th with
  | none => exact ⟨h, rfl⟩
  | some t =>
    have hf := List.mem_filter.mp h
    exact ⟨hf.1, by simpa using hf.2⟩

theorem mem_qualityFilterStage {qf : Option String} {l : List Item} {item : Item}
    (h : item ∈ qualityFilterStage qf l) : item ∈ l := by
  unfold qualityFilterStage at h
  split at h
  · exact (List.mem_filter.mp h).1
  · exact h

theorem matches_of_mem_qualityFilterStage {qf : Option String} {l : List Item} {item : Item}
    (hqf : strTruthy qf = true ∧ qf ≠ some "All") (h : item ∈ qualityFilterStage qf l) :
    matchesQualityFilter (extractQuality (some item.parsed)) qf = true := by
  unfold qualityFilterStage at h
  rw [if_pos hqf] at h
  exact (List.mem_filter.mp h).2

theorem mem_sortedResults {parse : String → ReleaseDescriptor}
    {th : Option AgeThresholds} {results : List RawResult} {m pl qf : Option String}
    {item : Item} :
    item ∈ (filterAndSortStreams parse th results m pl qf).sortedResults ↔
    item ∈ qualityFilterStage qf (ageFilterStage th (parsedItemsStage parse results)) := by
  unfold filterAndSortStreams
  by_cases h : (!strTruthy pl || pl == some "No Preference") = true
  · simp only [h, if_true, mem_sortWithinGroup]
  · rw [Bool.not_eq_true] at h
    simp only [h, Bool.false_eq_true, if_false, List.mem_append, mem_sortWithinGroup,
      List.mem_filter]
    constructor
    · rintro ((⟨h1, _⟩ | ⟨h1, _⟩) | ⟨h1, _⟩) <;> exact h1
    · intro hmem
      rcases detectLanguageGroup_cases (some item.parsed) pl item.result.title with hd | hd | hd
      · exact Or.inl (Or.inl ⟨hmem, by simp [hd]⟩)
      · exact Or.inl (Or.inr ⟨hmem, by simp [hd]⟩)
      · exact Or.inr ⟨hmem, by simp [hd]⟩

theorem charsStartsWith_iff {p s : List Char} :
    charsStartsWith p s = true ↔ ∃ r, s = p ++ r := by
  induction p generalizing s with
  | nil => simp [charsStartsWith]
  | cons a as ih =>
    cases s with
    | nil =>
      simp [charsStartsWith]
    | cons b bs =>
      simp only [charsStartsWith, Bool.and_eq_true, beq_iff_eq, ih, List.cons_append,
        List.cons.injEq]
      constructor
      · rintro ⟨rfl, r, rfl⟩
        exact ⟨r, rfl, rfl⟩
      · rintro ⟨r, rfl, rfl⟩
        exact ⟨rfl, r, rfl⟩

theorem charsContains_iff {s p : List Char} :
    charsContains s p = true ↔ ∃ l r, s = l ++ (p ++ r) := by
  induction s with
  | nil =>
    simp only [charsContains, List.isEmpty_iff]
    constructor
    · rintro rfl
      exact ⟨[], [], rfl⟩
    · rintro ⟨l, r, h⟩
      rcases l with _ | ⟨x, xs⟩
      · rcases p with _ | ⟨y, ys⟩
        · rfl
        · simp at h
      · simp at h
  | cons c rest ih =>
    simp only [charsContains, Bool.or_eq_true, charsStartsWith_iff, ih]
    constructor
    · rintro (⟨r, h⟩ | ⟨l, r, rfl⟩)
      · exact ⟨[], r, by simpa using h⟩
      · exact ⟨c :: l, r, rfl⟩
    · rintro ⟨l, r, h⟩
      rcases l with _ | ⟨x, xs⟩
      · exact Or.inl ⟨r, by simpa using h⟩
      · simp only [List.cons_append, List.cons.injEq] at h
        exact Or.inr ⟨xs, r, h.2⟩

theorem contains_of_contains_dtshdma {s : String} (h : strContains s "DTS-HD.MA" = true) :
    strContains s "DTS-HD" = true ∧ strContains s "MA" = true := by
  unfold strContains at h ⊢
  rw [charsContains_iff] at h
  obtain ⟨l, r, hs⟩ := h
  have e : ("DTS-HD.MA".data : List Char) = "DTS-HD".data ++ ('.' :: "MA".data) := by decide
  constructor
  · rw [charsContains_iff]
    refine ⟨l, '.' :: ("MA".data ++ r), ?_⟩
    rw [hs, e]
    simp
  · rw [charsContains_iff]
    refine ⟨l ++ ("DTS-HD".data ++ ['.']), r, ?_⟩
    rw [hs, e]
    simp

theorem matchesQualityFilter_none_eq_false {qf : Option String}
    (h1 : strTruthy qf = true) (h2 : qf ≠ some "All") :
    matchesQualityFilter none qf = false := by
  unfold matchesQualityFilter
  rw [if_neg]
  simp [h1, beq_eq_false_iff_ne.mpr h2]

theorem matchesQualityFilter_contains {q f : String}
    (hT : strTruthy (some f) = true) (hA : (some f : Option String) ≠ some "All")
    (h : matchesQualityFilter (some q) (some f) = true) :
    q ∈ qualityFilterMap (some f) := by
  unfold matchesQualityFilter at h
  rw [if_neg (by simp [hT, beq_eq_false_iff_ne.mpr hA])] at h
  by_cases hq : (q == "") = true
  · simp [hq] at h
  · simp [hq] at h
    exact h

theorem matches_1080_eq_some {q : Option String}
    (h : matchesQualityFilter q (some "1080p") = true) : q = some "1080p" := by
  rcases q with _ | q
  · rw [matchesQualityFilter_none_eq_false (by decide) (by decide)] at h
    exact absurd h Bool.false_ne_true
  · have hc := matchesQualityFilter_contains (by decide) (by decide) h
    have hm : qualityFilterMap (some "1080p") = ["1080p"] := by decide
    rw [hm] at hc
    simp only [List.mem_cons, List.not_mem_nil, or_false] at hc
    simp [hc]

theorem noPref_iff (pl : Option String) :
    (!strTruthy pl || pl == some "No Preference") = true ↔
    (strTruthy pl = false ∨ pl = some "No Preference") := by
  simp [Bool.or_eq_true, Bool.not_eq_true']

theorem getElem_append3_cases {α : Type} {P E O : List α} {i : Nat} {item : α}
    (h : (P ++ E ++ O)[i]? = some item) :
    (i < P.length ∧ item ∈ P) ∨
    (P.length ≤ i ∧ i < P.length + E.length ∧ item ∈ E) ∨
    (P.length + E.length ≤ i ∧ item ∈ O) := by
  by_cases h1 : i < P.length
  · left
    refine ⟨h1, ?_⟩
    rw [List.getElem?_append_left (by simp; omega), List.getElem?_append_left h1] at h
    exact List.getElem?_mem h
  · push_neg at h1
    by_cases h2 : i < P.length + E.length
    · right; left
      refine ⟨h1, h2, ?_⟩
      rw [List.getElem?_append_left (by simp; omega), List.getElem?_append_right h1] at h
      exact List.getElem?_mem h
    · push_neg at h2
      right; right
      refine ⟨h2, ?_⟩
      rw [List.getElem?_append_right (by simp; omega)] at h
      exact List.getElem?_mem h

/-- Claim C1: with a preferred language configured (truthy and not the
`No Preference` sentinel), `filterAndSortStreams` returns a `groupInfo`
whose `group1End` equals `preferredCount`, whose `group2End` equals
`group1End + englishCount`, whose three counts sum to
`sortedResults.length`, and the output partitions into three contiguous
segments: indices below `group1End` classify as `preferred`, indices in
`[group1End, group2End)` as `english`, and indices from `group2End` on
as `other` — no gaps, no overlaps. -/
theorem c1_three_tier_partition (parse : String → ReleaseDescriptor)
    (th : Option AgeThresholds) (results : List RawResult) (m qf pl : Option String)
    (h1 : strTruthy pl = true) (h2 : pl ≠ some "No Preference") :
    ∃ gi, (filterAndSortStreams parse th results m pl qf).groupInfo = some gi ∧
      gi.group1End = gi.preferredCount ∧
      gi.group2End = gi.group1End + gi.englishCount ∧
      gi.preferredCount + gi.englishCount + gi.otherCount =
        (filterAndSortStreams parse th results m pl qf).sortedResults.length ∧
      (∀ i item, i < gi.group1End →
        (filterAndSortStreams parse th results m pl qf).sortedResults[i]? = some item →
        detectLanguageGroup (some item.parsed) pl item.result.title = "preferred") ∧
      (∀ i item, gi.group1End ≤ i → i < gi.group2End →
        (filterAndSortStreams parse th results m pl qf).sortedResults[i]? = some item →
        detectLanguageGroup (some item.parsed) pl item.result.title = "english") ∧
      (∀ i item, gi.group2End ≤ i →
        (filterAndSortStreams parse th results m pl qf).sortedResults[i]? = some item →
        detectLanguageGroup (some item.parsed) pl item.result.title = "other") := by
  have hcond : (!strTruthy pl || pl == some "No Preference") = false := by
    simp [h1, beq_eq_false_iff_ne.mpr h2]
  unfold filterAndSortStreams
  simp only [hcond, Bool.false_eq_true, if_false]
  set L := qualityFilterStage qf (ageFilterStage th (parsedItemsStage parse results)) with hL
  set P := sortWithinGroup (L.filter fun item =>
    detectLanguageGroup (some item.parsed) pl item.result.title == "preferred") m with hP
  set E := sortWithinGroup (L.filter fun item =>
    detectLanguageGroup (some item.parsed) pl item.result.title == "english") m with hE
  set O := sortWithinGroup (L.filter fun item =>
    !(detectLanguageGroup (some item.parsed) pl item.result.title == "preferred") &&
    !(detectLanguageGroup (some item.parsed) pl item.result.title == "english")) m with hO
  refine ⟨_, rfl, rfl, rfl, ?_, ?_, ?_, ?_⟩
  · simp only [List.length_append]
  · intro i item hi hget
    replace hi : i < P.length := hi
    rcases getElem_append3_cases hget with ⟨_, hmem⟩ | ⟨hge, _, _⟩ | ⟨hge, _⟩
    · have hpred := (List.mem_filter.mp (mem_sortWithinGroup.mp hmem)).2
      simpa using hpred
    · exact absurd hi (by omega)
    · exact absurd hi (by omega)
  · intro i item hge hlt hget
    replace hge : P.length ≤ i := hge
    replace hlt : i < P.length + E.length := hlt
    rcases getElem_append3_cases hget with ⟨hlt2, _⟩ | ⟨_, _, hmem⟩ | ⟨hge2, _⟩
    · exact absurd hge (by omega)
    · have hpred := (List.mem_filter.mp (mem_sortWithinGroup.mp hmem)).2
      simpa using hpred
    · exact absurd hlt (by omega)
  · intro i item hge hget
    replace hge : P.length + E.length ≤ i := hge
    rcases getElem_append3_cases hget with ⟨hlt2, _⟩ | ⟨_, hlt2, _⟩ | ⟨_, hmem⟩
    · exact absurd hge (by omega)
    · exact absurd hge (by omega)
    · have hpred := (List.mem_filter.mp (mem_sortWithinGroup.mp hmem)).2
      simp only [Bool.and_eq_true, Bool.not_eq_true', beq_eq_false_iff_ne] at hpred
      rcases detectLanguageGroup_cases (some item.parsed) pl item.result.title with
        hd | hd | hd
      · exact absurd hd hpred.1
      · exact absurd hd hpred.2
      · exact hd

/-- Witness for C1: the hypotheses hold at `pl = some "German"` with the
sample inputs, and the resulting `groupInfo` is non-null. -/
theorem c1_three_tier_partition_witness :
    ((filterAndSortStreams sampleParse none sampleResults none (some "German")
      none).groupInfo).isSome = true := by
  obtain ⟨gi, hgi, -⟩ := c1_three_tier_partition sampleParse none sampleResults none none
    (some "German") (by decide) (by decide)
  rw [hgi]
  rfl

/-- Claim C2 counterexample: an unrecognized quality filter does not
behave as `All`.  `matchesQualityFilter` rejects a 1080p item under the
filter `"Bogus"`, and the pipeline output under `"Bogus"` is empty while
the output under `"All"` is not. -/
theorem c2_unrecognized_filter_drops_item :
    matchesQualityFilter (some "1080p") (some "Bogus") = false ∧
    (filterAndSortStreams sampleParse none sampleSingleton none none
      (some "Bogus")).sortedResults = [] ∧
    (filterAndSortStreams sampleParse none sampleSingleton none none
      (some "All")).sortedResults ≠ [] := by
  refine ⟨by decide, ?_, ?_⟩
  · have hq : qualityFilterStage (some "Bogus")
        (ageFilterStage none (parsedItemsStage sampleParse sampleSingleton)) = [] := by
      decide
    simp only [filterAndSortStreams, hq, sortWithinGroup, List.mergeSort_nil]
    simp [strTruthy]
  · have hq : qualityFilterStage (some "All")
        (ageFilterStage none (parsedItemsStage sampleParse sampleSingleton)) =
        [sampleEnglishItem] := by
      decide
    simp only [filterAndSortStreams, hq, sortWithinGroup, List.mergeSort_singleton]
    simp [strTruthy]

/-- Claim C2 (amended): a falsy (absent or empty) `qualityFilter`
behaves as `All` — everything is kept and the pipeline output equals the
output under no filter; but a non-empty unrecognized `qualityFilter`
maps to the empty allowed set, so `matchesQualityFilter` rejects every
item (known or unknown quality) and the pipeline output is empty. -/
theorem c2_unrecognized_filter_empties_output (parse : String → ReleaseDescriptor)
    (th : Option AgeThresholds) (results : List RawResult) (m pl : Option String)
    (f : String)
    (hf : f ∉ ["All", "4K/2160p", "1080p", "720p", "480p", "4K + 1080p",
      "1080p + 720p", "720p + 480p"]) (hne : (f == "") = false) :
    (∀ q, matchesQualityFilter q (some f) = false) ∧
    (filterAndSortStreams parse th results m pl (some f)).sortedResults = [] ∧
    (∀ q, matchesQualityFilter q (some "") = true) ∧
    filterAndSortStreams parse th results m pl none =
      filterAndSortStreams parse th results m pl (some "All") := by
  simp only [List.mem_cons, List.not_mem_nil, or_false, not_or] at hf
  obtain ⟨hfAll, hf1, hf2, hf3, hf4, hf5, hf6, hf7⟩ := hf
  have hmap : qualityFilterMap (some f) = [] := by
    unfold qualityFilterMap
    simp [hf1, hf2, hf3, hf4, hf5, hf6, hf7]
  have hmatch : ∀ q, matchesQualityFilter q (some f) = false := by
    intro q
    unfold matchesQualityFilter
    rw [if_neg]
    · rcases q with _ | q
      · rfl
      · by_cases hq : (q == "") = true
        · simp [hq]
        · simp [hq, hmap]
    · simp [strTruthy, hne, hfAll]
  have hstage : ∀ l, qualityFilterStage (some f) l = [] := by
    intro l
    unfold qualityFilterStage
    rw [if_pos]
    · simp only [hmatch]
      simp
    · constructor
      · simp [strTruthy, hne]
      · simp [hfAll]
  refine ⟨hmatch, ?_, ?_, ?_⟩
  · unfold filterAndSortStreams
    rw [hstage]
    split_ifs
    · simp [sortWithinGroup, List.mergeSort_nil]
    · simp [sortWithinGroup, List.mergeSort_nil]
  · intro q
    simp [matchesQualityFilter, strTruthy]
  · unfold filterAndSortStreams
    have e1 : qualityFilterStage none = id := by
      funext l
      simp [qualityFilterStage, strTruthy]
    have e2 : qualityFilterStage (some "All") = id := by
      funext l
      simp [qualityFilterStage, strTruthy]
    rw [e1, e2]

/-- Witness for C2 (amended): concrete instances at the unrecognized
filter `"Bogus"`. -/
theorem c2_unrecognized_filter_empties_output_witness :
    matchesQualityFilter (some "1080p") (some "Bogus") = false ∧
    (filterAndSortStreams sampleParse none sampleResults none none
      (some "Bogus")).sortedResults = [] :=
  ⟨(c2_unrecognized_filter_empties_output sampleParse none sampleResults none none "Bogus"
      (by decide) (by decide)).1 (some "1080p"),
   (c2_unrecognized_filter_empties_output sampleParse none sampleResults none none "Bogus"
      (by decide) (by decide)).2.1⟩

/-- Claim C3 counterexample: the claim puts the plain-`TrueHD` rule at
priority 2, so `"TrueHD AC3"` (contains `TRUEHD`, no `ATMOS`) would have
to rank 6; the code checks plain `TRUEHD` only after the AC3/DTS/AAC
rules and returns 3 for this codec. -/
theorem c3_plain_truehd_not_priority_2 :
    getAudioQualityRank (some "TrueHD AC3") = 3 ∧ (3 : Nat) ≠ 6 := by
  constructor
  · decide
  · decide

/-- Claim C3 (amended): `getAudioQualityRank` evaluates its substring
rules against the uppercased codec first-match-wins in this priority:
(1) TrueHD+Atmos or DTS-HD+MA → 6; (2) DTS-HD without MA → 5; (3)
EAC3/E-AC-3/DD+/DDP → 4; (4) AC3, bare DD, or DTS (not DTS-HD) → 3; (5)
AAC → 2; (6) plain TrueHD → 6; (7) any other non-empty string → 1; (8)
empty/unknown → 0.  The plain-TrueHD rule is evaluated last among the
substring rules, not second, so a TrueHD codec string that also matches
a lower-tier rule takes the lower tier. -/
theorem c3_audio_rank_rule_order (c : Option String) :
    getAudioQualityRank c = audioRankSpec c := by
  rcases c with _ | s
  · rfl
  · unfold getAudioQualityRank audioRankSpec
    by_cases h0 : (s == "") = true
    · simp [h0]
    · simp only [h0, Bool.false_eq_true, if_false]
      set u := strUpper s with hu
      simp only [audioRankRules, firstMatchRank]
      by_cases hTA : (strContains u "TRUEHD" && strContains u "ATMOS") = true
      · simp [hTA]
      · by_cases hDM : (strContains u "DTS-HD" && strContains u "MA") = true
        · simp [hTA, hDM]
        · by_cases hDMA : strContains u "DTS-HD.MA" = true
          · obtain ⟨hD, hM⟩ := contains_of_contains_dtshdma hDMA
            simp [hD, hM] at hDM
          · by_cases hD : strContains u "DTS-HD" = true
            · simp [hTA, hDM, hDMA, hD]
            · by_cases hE4 : (strContains u "EAC3" || strContains u "E-AC-3" ||
                  strContains u "DD+" || strContains u "DDP") = true
              · simp [hTA, hDM, hDMA, hD, hE4]
              · by_cases hE3 : (strContains u "AC3" || strContains u "DD " ||
                    u == "DD") = true
                · simp [hTA, hDM, hDMA, hD, hE4, hE3]
                · by_cases hDTS : strContains u "DTS" = true
                  · simp [hTA, hDM, hDMA, hD, hE4, hE3, hDTS]
                  · by_cases hAAC : strContains u "AAC" = true
                    · simp [hTA, hDM, hDMA, hD, hE4, hE3, hDTS, hAAC]
                    · by_cases hT : strContains u "TRUEHD" = true
                      · simp [hTA, hDM, hDMA, hD, hE4, hE3, hDTS, hAAC, hT]
                      · simp [hTA, hDM, hDMA, hD, hE4, hE3, hDTS, hAAC, hT]

/-- Claim C4: retention admission control.  With thresholds and age
present, `shouldFilterByAge` is true exactly when `age > filterDays`;
every item of the pipeline output has `shouldFilterByAge` false (so
filtered items are absent from `sortedResults`); `getAgeHealthStatus`
reports status `filtered` for exactly the ages `shouldFilterByAge`
rejects; and with absent thresholds or absent age `shouldFilterByAge` is
false, so this stage drops nothing. -/
theorem c4_retention_admission (parse : String → ReleaseDescriptor)
    (th : Option AgeThresholds) (results : List RawResult) (m pl qf : Option String)
    (t : AgeThresholds) (a : Int) (item : Item)
    (hmem : item ∈ (filterAndSortStreams parse th results m pl qf).sortedResults) :
    shouldFilterByAge th item.result.age = false ∧
    (shouldFilterByAge (some t) (some a) = true ↔ a > t.filterDays) ∧
    ((getAgeHealthStatus (some t) (some a)).map HealthStatus.status = some "filtered" ↔
      shouldFilterByAge (some t) (some a) = true) ∧
    shouldFilterByAge none (some a) = false ∧
    shouldFilterByAge (some t) none = false := by
  refine ⟨?_, ?_, ?_, rfl, rfl⟩
  · exact (mem_ageFilterStage (mem_qualityFilterStage (mem_sortedResults.mp hmem))).2
  · simp [shouldFilterByAge]
  · simp only [getAgeHealthStatus, shouldFilterByAge]
    split_ifs <;> simp_all

/-- Witness for C4: concrete instantiation with the sample pipeline
(thresholds 7/30/60/90), the member item of age 2, and the probe age
100. -/
theorem c4_retention_admission_witness :
    shouldFilterByAge (some sampleThresholds) sampleItem.result.age = false ∧
    (shouldFilterByAge (some sampleThresholds) (some 100) = true ↔
      (100 : Int) > sampleThresholds.filterDays) ∧
    ((getAgeHealthStatus (some sampleThresholds) (some 100)).map HealthStatus.status =
      some "filtered" ↔ shouldFilterByAge (some sampleThresholds) (some 100) = true) ∧
    shouldFilterByAge none (some 100) = false ∧
    shouldFilterByAge (some sampleThresholds) none = false :=
  c4_retention_admission sampleParse (some sampleThresholds) sampleResults none none none
    sampleThresholds 100 sampleItem (mem_sortedResults.mpr (by decide))

/-- Claim C5: quality admission.  Under any recognized specific filter
every surviving pipeline item satisfies `matchesQualityFilter` (hence
its extracted quality is in the allowed set) and no surviving item has
unknown extracted quality; under `All` or an absent filter every quality
passes; and under `1080p` every surviving item has extracted quality
exactly `1080p`. -/
theorem c5_quality_admission (parse : String → ReleaseDescriptor)
    (th : Option AgeThresholds) (results : List RawResult) (m pl : Option String)
    (f : String)
    (hf : f ∈ ["4K/2160p", "1080p", "720p", "480p", "4K + 1080p", "1080p + 720p",
      "720p + 480p"]) :
    (∀ item ∈ (filterAndSortStreams parse th results m pl (some f)).sortedResults,
        matchesQualityFilter (extractQuality (some item.parsed)) (some f) = true ∧
        extractQuality (some item.parsed) ≠ none) ∧
    (∀ q, matchesQualityFilter q (some "All") = true ∧ matchesQualityFilter q none = true) ∧
    (∀ item ∈ (filterAndSortStreams parse th results m pl (some "1080p")).sortedResults,
        extractQuality (some item.parsed) = some "1080p") := by
  have hact : strTruthy (some f) = true ∧ (some f : Option String) ≠ some "All" := by
    simp only [List.mem_cons, List.not_mem_nil, or_false] at hf
    rcases hf with rfl | rfl | rfl | rfl | rfl | rfl | rfl <;> exact ⟨by decide, by decide⟩
  have hact1080 : strTruthy (some "1080p") = true ∧
      (some "1080p" : Option String) ≠ some "All" := ⟨by decide, by decide⟩
  refine ⟨?_, ?_, ?_⟩
  · intro item hmem
    have hm := matches_of_mem_qualityFilterStage hact (mem_sortedResults.mp hmem)
    refine ⟨hm, ?_⟩
    intro hnone
    rw [hnone, matchesQualityFilter_none_eq_false hact.1 hact.2] at hm
    exact Bool.false_ne_true hm
  · intro q
    constructor
    · simp [matchesQualityFilter, strTruthy]
    · simp [matchesQualityFilter, strTruthy]
  · intro item hmem
    exact matches_1080_eq_some
      (matches_of_mem_qualityFilterStage hact1080 (mem_sortedResults.mp hmem))

/-- Witness for C5: under the `1080p` filter the concrete surviving
sample item indeed has extracted quality `1080p`. -/
theorem c5_quality_admission_witness :
    extractQuality (some sampleEnglishItem.parsed) = some "1080p" :=
  (c5_quality_admission sampleParse none sampleResults none none "1080p"
    (by decide)).2.2 sampleEnglishItem (mem_sortedResults.mpr (by decide))

/-- Claim C6: for a descriptor with `multi = true` and a configured
preferred language, `detectLanguageGroup` returns `preferred` exactly
when the declared languages contain the preferred language
(case-insensitively); otherwise `english` (the Fallback tier) exactly
when they contain `english`; otherwise `other`.  A MULTi tag alone,
without a confirmed preferred-language track, never yields
`preferred`. -/
theorem c6_multi_requires_confirmed_track (d : ReleaseDescriptor) (pl : String)
    (title : String) (hm : d.multi = true) (h1 : (pl == "") = false)
    (h2 : (pl == "No Preference") = false) :
    (detectLanguageGroup (some d) (some pl) title = "preferred" ↔
      (d.languages.any fun lang => strLower lang == strLower pl) = true) ∧
    ((d.languages.any fun lang => strLower lang == strLower pl) = false →
      (detectLanguageGroup (some d) (some pl) title = "english" ↔
        (d.languages.any fun lang => strLower lang == "english") = true)) ∧
    ((d.languages.any fun lang => strLower lang == strLower pl) = false →
      (d.languages.any fun lang => strLower lang == "english") = false →
      detectLanguageGroup (some d) (some pl) title = "other") := by
  unfold detectLanguageGroup
  simp only [h1, h2, Bool.or_self, Bool.false_eq_true, if_false, hm, if_true]
  by_cases hP : (d.languages.any fun lang => strLower lang == strLower pl) = true
  · simp [hP]
  · rw [Bool.not_eq_true] at hP
    by_cases hE : (d.languages.any fun lang => strLower lang == "english") = true
    · simp [hP, hE]
    · rw [Bool.not_eq_true] at hE
      simp [hP, hE]

/-- Witness for C6: the MULTi descriptor with a confirmed German track
classifies as `preferred` under preferred language `German`. -/
theorem c6_multi_requires_confirmed_track_witness :
    detectLanguageGroup (some multiGermanDescriptor) (some "German") "" = "preferred" :=
  (c6_multi_requires_confirmed_track multiGermanDescriptor "German" "" (by decide)
    (by decide) (by decide)).1.mpr (by decide)

/-- Claim C7: `groupInfo` is `null` exactly when no preferred language
is configured (absent/empty, or the `No Preference` sentinel), and in
that single-group mode the whole surviving set is sorted once as one
group with no tier classification. -/
theorem c7_groupinfo_null_iff_no_preference (parse : String → ReleaseDescriptor)
    (th : Option AgeThresholds) (results : List RawResult) (m pl qf : Option String) :
    ((filterAndSortStreams parse th results m pl qf).groupInfo = none ↔
      (strTruthy pl = false ∨ pl = some "No Preference")) ∧
    ((strTruthy pl = false ∨ pl = some "No Preference") →
      (filterAndSortStreams parse th results m pl qf).sortedResults =
        sortWithinGroup
          (qualityFilterStage qf (ageFilterStage th (parsedItemsStage parse results))) m) := by
  unfold filterAndSortStreams
  by_cases h : (!strTruthy pl || pl == some "No Preference") = true
  · simp only [h, if_true]
    exact ⟨by simp [(noPref_iff pl).mp h], fun _ => by simp⟩
  · have hrhs : ¬(strTruthy pl = false ∨ pl = some "No Preference") := by
      intro hc
      exact h ((noPref_iff pl).mpr hc)
    rw [Bool.not_eq_true] at h
    simp only [h, Bool.false_eq_true, if_false]
    exact ⟨iff_of_false (by simp) hrhs, fun hc => absurd hc hrhs⟩

/-- Witness for C7: concrete instance with an absent preferred
language. -/
theorem c7_groupinfo_null_iff_no_preference_witness :
    ((filterAndSortStreams sampleParse none sampleResults none none none).groupInfo =
      none ↔
      (strTruthy none = false ∨ (none : Option String) = some "No Preference")) ∧
    ((strTruthy none = false ∨ (none : Option String) = some "No Preference") →
      (filterAndSortStreams sampleParse none sampleResults none none none).sortedResults =
        sortWithinGroup
          (qualityFilterStage none
            (ageFilterStage none (parsedItemsStage sampleParse sampleResults))) none) :=
  c7_groupinfo_null_iff_no_preference sampleParse none sampleResults none none none

/-- Claim C8: every unrecognized (or absent) `sortMethod` behaves
exactly as `Quality First`: the comparator agrees on every pair and
`sortWithinGroup` returns the identical sequence. -/
theorem c8_unrecognized_sort_method_defaults (items : List Item) (m : Option String)
    (h1 : m ≠ some "Quality First") (h2 : m ≠ some "Size First")
    (h3 : m ≠ some "Date First") :
    (∀ a b, streamCompare m a b = streamCompare (some "Quality First") a b) ∧
    sortWithinGroup items m = sortWithinGroup items (some "Quality First") := by
  have e1 : (m == some "Quality First") = false := beq_eq_false_iff_ne.mpr h1
  have e2 : (m == some "Size First") = false := beq_eq_false_iff_ne.mpr h2
  have e3 : (m == some "Date First") = false := beq_eq_false_iff_ne.mpr h3
  have hk : ∀ x, sortKeys m x = sortKeys (some "Quality First") x := by
    intro x
    unfold sortKeys primaryKey
    simp [e1, e2, e3]
  have hcmp : ∀ a b, streamCompare m a b = streamCompare (some "Quality First") a b := by
    intro a b
    rw [streamCompare_eq_lex4, streamCompare_eq_lex4, hk, hk]
  refine ⟨hcmp, ?_⟩
  unfold sortWithinGroup
  congr 1
  funext a b
  rw [hcmp]

/-- Witness for C8: the unrecognized method `"Bogus"` agrees with
`Quality First` on a concrete pair and a concrete list. -/
theorem c8_unrecognized_sort_method_defaults_witness :
    streamCompare (some "Bogus") sampleItemA sampleItemB =
      streamCompare (some "Quality First") sampleItemA sampleItemB ∧
    sortWithinGroup [sampleItemA, sampleItemB] (some "Bogus") =
      sortWithinGroup [sampleItemA, sampleItemB] (some "Quality First") :=
  ⟨(c8_unrecognized_sort_method_defaults [sampleItemA, sampleItemB] (some "Bogus")
      (by decide) (by decide) (by decide)).1 sampleItemA sampleItemB,
   (c8_unrecognized_sort_method_defaults [sampleItemA, sampleItemB] (some "Bogus")
      (by decide) (by decide) (by decide)).2⟩

/-- Claim C9: the comparator cascade is total and the sort is stable:
for any two items agreeing on all four comparison keys (primary key,
video rank, audio rank, byte size) the comparator returns 0 in both
orientations, and `sortWithinGroup` preserves their relative input order
in any surrounding context. -/
theorem c9_comparator_total_and_stable (m : Option String) (a b : Item)
    (h1 : primaryKey m a = primaryKey m b)
    (h2 : getVideoQualityRank a.parsed.resolution = getVideoQualityRank b.parsed.resolution)
    (h3 : getAudioQualityRank a.parsed.audioCodec = getAudioQualityRank b.parsed.audioCodec)
    (h4 : sizeVal a.result = sizeVal b.result) :
    streamCompare m a b = 0 ∧ streamCompare m b a = 0 ∧
    ∀ l1 l2 l3 : List Item,
      List.Sublist [a, b] (sortWithinGroup (l1 ++ a :: (l2 ++ b :: l3)) m) := by
  have hk : sortKeys m a = sortKeys m b := by
    unfold sortKeys
    rw [h1, h2, h3, h4]
  have hab : streamCompare m a b = 0 := by
    rw [streamCompare_eq_lex4, hk]
    exact lex4_of_eq rfl
  have hba : streamCompare m b a = 0 := by
    rw [streamCompare_eq_lex4, hk]
    exact lex4_of_eq rfl
  refine ⟨hab, hba, ?_⟩
  intro l1 l2 l3
  unfold sortWithinGroup
  apply List.pair_sublist_mergeSort
  · intro x y z hxy hyz
    simp only [decide_eq_true_eq] at hxy hyz ⊢
    exact streamCompare_le_trans m hxy hyz
  · intro x y
    rcases streamCompare_le_total m x y with h | h
    · simp [h]
    · simp [h]
  · simp [hab]
  · have s1 : List.Sublist [b] (b :: l3) := List.Sublist.cons₂ b (List.nil_sublist l3)
    have s2 : List.Sublist [b] (l2 ++ b :: l3) :=
      s1.trans (List.sublist_append_right l2 (b :: l3))
    have s3 : List.Sublist [a, b] (a :: (l2 ++ b :: l3)) := List.Sublist.cons₂ a s2
    exact s3.trans (List.sublist_append_right l1 (a :: (l2 ++ b :: l3)))

/-- Witness for C9: the two key-identical sample items compare 0 and
keep their input order through the sort. -/
theorem c9_comparator_total_and_stable_witness :
    streamCompare none sampleItemA sampleItemB = 0 ∧
    List.Sublist [sampleItemA, sampleItemB]
      (sortWithinGroup ([] ++ sampleItemA :: ([] ++ sampleItemB :: [])) none) :=
  ⟨(c9_comparator_total_and_stable none sampleItemA sampleItemB (by decide) (by decide)
      (by decide) (by decide)).1,
   (c9_comparator_total_and_stable none sampleItemA sampleItemB (by decide) (by decide)
      (by decide) (by decide)).2.2 [] [] []⟩

/-- Claim C10: when the parsed descriptor argument is null/undefined,
`detectLanguageGroup` returns the fallback group `"english"`
unconditionally, for every preferred language and every title — the
title dictionary is never consulted, so even a title containing `GERMAN`
with preferred language German yields `"english"`. -/
theorem c10_null_descriptor_is_english (pl : Option String) (title : String) :
    detectLanguageGroup none pl title = "english" := by
  unfold detectLanguageGroup
  rfl
